import Mathlib

/-!
Verification of DownCLI (src/DownCLI.py), a concurrent CLI downloader.

The program is shallowly embedded: HTTP responses are records with a status
code, an optional parsed `Content-Length`, an optional raw `Content-Type`
header and a body of bytes (naturals); the network is a pure environment
(`Server` for the fetcher's two requests, `String → ProbeResult` for the
dispatcher's per-URL HEAD probes); effects (requests issued, file writes,
progress-counter advances, cancellation checks, log lines) are reified as
event traces; Python exceptions become explicit error values.
-/

namespace DownCLI

/-- The fixed chunk size of `response.iter_content(32768)` (DownCLI.py line 52). -/
def CHUNK_SIZE : Nat := 32768

/-- Fuel-indexed chunking of a byte body into pieces of `CHUNK_SIZE` bytes
(the final piece may be shorter).  The fuel is only a termination device;
`body.length` steps always suffice because each step consumes at least one
byte of a nonempty body. -/
def chunkBodyAux : Nat → List Nat → List (List Nat)
  | 0, _ => []
  | _, [] => []
  | fuel + 1, b => b.take CHUNK_SIZE :: chunkBodyAux fuel (b.drop CHUNK_SIZE)

/-- The chunk sequence `response.iter_content(32768)` yields for a body. -/
def chunkBody (body : List Nat) : List (List Nat) :=
  chunkBodyAux body.length body

/-- Model of Python `str.split(sep)` on character lists (single-character
separator, as used with `"/"` and `";"` in DownCLI.py lines 66 and 68):
always returns at least one (possibly empty) group. -/
def splitChars (sep : Char) : List Char → List (List Char)
  | [] => [[]]
  | c :: cs =>
    if c = sep then [] :: splitChars sep cs
    else
      match splitChars sep cs with
      | [] => [[c]]
      | g :: gs => (c :: g) :: gs

/-- Python `s.split(sep)` for a one-character separator. -/
def pySplit (sep : Char) (s : String) : List String :=
  (splitChars sep s.data).map String.mk

/-- Line 68: `response.headers['Content-Type'].split(';')[0]`. -/
def parseContentTypeHeader (raw : String) : String :=
  (pySplit ';' raw).headD ""

/-- Line 66: `filename = url.split("/")[-1]`. -/
def filenameFromUrl (url : String) : String :=
  (pySplit '/' url).getLastD ""

/-- Line 71: `os.path.join(dest_dir, filename)` (POSIX join: an absolute
second component wins; otherwise a `/` is inserted unless the first
component is empty or already ends in `/`). -/
def joinPath (destDir fn : String) : String :=
  if fn.data.headD ' ' = '/' then fn
  else if destDir.data = [] then fn
  else if destDir.data.getLastD ' ' = '/' then destDir ++ fn
  else destDir ++ "/" ++ fn

/-- HTTP request method, as issued by the `requests` calls in DownCLI.py. -/
inductive Method
  | get
  | head
deriving DecidableEq, Inhabited

/-- One HTTP request issued by the program: method, URL, and whether it was
opened in streaming mode (`requests.get(url, stream=True)` is streamed,
`requests.head(url)` is not). -/
structure Req where
  method : Method
  url : String
  streamed : Bool
deriving DecidableEq, Inhabited

/-- An HTTP response as the program consumes it: status code, the
`Content-Length` header (absent, or present with its integer value — the
code reads it with `int(meta.headers["Content-Length"])`), the raw
`Content-Type` header (absent means `headers['Content-Type']` raises
`KeyError`), and the body bytes (`response.content` fully buffered). -/
structure Response where
  status : Nat
  contentLength : Option Nat
  contentType : Option String
  body : List Nat
deriving DecidableEq

/-- The remote endpoint seen by one `copy_url` call: the response to its
HEAD request (line 45) and the response to its streaming GET (line 44).
A HEAD response carries no body on the wire, so `head.body` is `[]` for
realistic servers; this is not enforced, only used in concrete instances. -/
structure Server where
  head : Response
  get : Response
deriving DecidableEq

/-- One observable step of the fetcher's streaming loop (lines 52-56):
a file write of a chunk, a progress advance by a byte count
(`progress.update(task_id, advance=len(data))`), or a read of the
cancellation flag (`done_event.is_set()`), recording the value read. -/
inductive FetchEvent
  | write (chunk : List Nat)
  | advance (n : Nat)
  | check (signalSet : Bool)
deriving DecidableEq

/-- The streaming loop of `copy_url` (lines 52-56), as an event trace.
For the chunk at index `i` the loop writes it, advances the counter by its
length, then reads the cancellation flag (modelled as `sig i`, the value
the flag has at the i-th check); a `true` read makes the loop return early.
Returns the trace and whether the loop ran to completion (in which case
line 57 logs the `Downloaded` line). -/
def streamTrace (sig : Nat → Bool) : List (List Nat) → Nat → List FetchEvent × Bool
  | [], _ => ([], true)
  | c :: rest, i =>
    if sig i then
      ([FetchEvent.write c, FetchEvent.advance c.length, FetchEvent.check true], false)
    else
      (FetchEvent.write c :: FetchEvent.advance c.length :: FetchEvent.check false ::
        (streamTrace sig rest (i + 1)).1, (streamTrace sig rest (i + 1)).2)

/-- Everything observable about one `copy_url` call: the HTTP requests it
issued in order, the total it displayed via `progress.update(task_id,
total=...)`, the streaming-loop event trace, whether `progress.start_task`
ran, whether the destination file handle was closed (the `with open`
block closes it on every exit path, including the early `return`), and
whether the completion log line of line 57 was emitted. -/
structure FetchEffects where
  requestTrace : List Req
  displayedTotal : Nat
  events : List FetchEvent
  taskStarted : Bool
  fileClosed : Bool
  completionLogged : Bool
deriving DecidableEq

/-- `copy_url(task_id, url, path)` (lines 40-57).  It opens a streaming GET
(line 44), then issues a HEAD (line 45); the displayed total prefers the
HEAD's `Content-Length` (line 47) and otherwise is
`int(len(response.content))`, the byte length of the fully buffered body
of the streaming GET itself (line 49) — no further request is issued.
It then streams the GET body in `CHUNK_SIZE` chunks, checking the
cancellation flag after each write+advance.  The function is total: no
exception paths are modelled because none of the claims need a failing
transport inside `copy_url`. -/
def copyUrl (sig : Nat → Bool) (server : Server) (url : String) : FetchEffects :=
  let response := server.get
  let meta := server.head
  let total :=
    match meta.contentLength with
    | some n => n
    | none => response.body.length
  let r := streamTrace sig (chunkBody response.body) 0
  { requestTrace := [⟨Method.get, url, true⟩, ⟨Method.head, url, false⟩]
    displayedTotal := total
    events := r.1
    taskStarted := true
    fileClosed := true
    completionLogged := r.2 }

/-- The chunks written to the destination file, read off an event trace. -/
def writtenChunks (es : List FetchEvent) : List (List Nat) :=
  es.filterMap fun e =>
    match e with
    | FetchEvent.write c => some c
    | _ => none

/-- The sum of all progress advances in an event trace. -/
def advanceTotal (es : List FetchEvent) : Nat :=
  (es.filterMap fun e =>
    match e with
    | FetchEvent.advance n => some n
    | _ => none).sum

/-- The task's transferred-byte counter after the first `n` events. -/
def counterAt (es : List FetchEvent) (n : Nat) : Nat :=
  advanceTotal (es.take n)

/-- Outcome of the dispatcher's HEAD probe for one URL (line 67):
either a response, or a transport-layer failure (the `requests.head`
call raising, e.g. a connection error or timeout). -/
inductive ProbeResult
  | ok (resp : Response)
  | transportFailure
deriving DecidableEq

/-- An uncaught Python exception escaping the dispatch loop. -/
inductive DispatchError
  | transportError
  | keyError (key : String)
deriving DecidableEq

/-- A display task as registered by `progress.add_task` on line 76:
the descriptive fields, `start=False`, and a transferred-byte counter
that begins at 0 and is only ever advanced by the owning fetcher. -/
structure DispatchTask where
  filename : String
  contenttype : String
  responsecode : String
  started : Bool
  transferred : Nat
deriving DecidableEq, Inhabited

/-- A fetch job handed to `pool.submit(copy_url, task_id, url, dest_path)`
on line 77. -/
structure Job where
  url : String
  destPath : String
deriving DecidableEq

/-- `requests.codes.ok`, the literal status 200 compared on line 72. -/
def codes_ok : Nat := 200

/-- Lines 72-75: the rendered status markup — green exactly when the status
equals `requests.codes.ok`, red otherwise. -/
def renderStatusCode (status : Nat) : String :=
  if status = codes_ok then "[green]" ++ toString status ++ "[/]"
  else "[red]" ++ toString status ++ "[/]"

/-- The display task built on lines 66-76 for a URL whose probe returned
`resp` with raw `Content-Type` header `raw`. -/
def taskFor (url : String) (resp : Response) (raw : String) : DispatchTask :=
  let contenttype := parseContentTypeHeader raw
  let filename0 := filenameFromUrl url
  let filename := if contenttype = "text/plain" then filename0 ++ ".txt" else filename0
  { filename := filename
    contenttype := contenttype
    responsecode := renderStatusCode resp.status
    started := false
    transferred := 0 }

/-- The observable outcome of the dispatch loop (lines 65-77): which URLs
were probed (in order), which display tasks were registered, which jobs
were submitted, and the uncaught exception, if any, that aborted the loop. -/
structure DispatchState where
  probed : List String
  tasks : List DispatchTask
  jobs : List Job
  error : Option DispatchError
deriving DecidableEq

/-- The `for url in urls` loop of `download` (lines 65-77).  Each iteration
probes the URL with HEAD; a transport failure or a missing `Content-Type`
header raises out of the loop (nothing is caught), so later URLs are
neither probed nor registered; otherwise the task is registered and the
job submitted unconditionally, regardless of the status code. -/
def dispatchLoop (net : String → ProbeResult) (destDir : String) : List String → DispatchState
  | [] => ⟨[], [], [], none⟩
  | url :: rest =>
    match net url with
    | ProbeResult.transportFailure => ⟨[url], [], [], some DispatchError.transportError⟩
    | ProbeResult.ok resp =>
      match resp.contentType with
      | none => ⟨[url], [], [], some (DispatchError.keyError "Content-Type")⟩
      | some raw =>
        let task := taskFor url resp raw
        let s := dispatchLoop net destDir rest
        ⟨url :: s.probed, task :: s.tasks,
          ⟨url, joinPath destDir task.filename⟩ :: s.jobs, s.error⟩

/-- A whole `download(urls, dest_dir)` call (lines 60-77): the
`with progress:` block opens the shared display and guarantees its
teardown on every exit path, around the dispatch loop. -/
structure DownloadRun where
  displayOpened : Bool
  displayClosed : Bool
  loop : DispatchState
deriving DecidableEq

/-- `download(urls, dest_dir)` (lines 60-77). -/
def download (net : String → ProbeResult) (urls : List String) (destDir : String) : DownloadRun :=
  { displayOpened := true
    displayClosed := true
    loop := dispatchLoop net destDir urls }

/-- A URL whose HEAD probe succeeds and carries a `Content-Type` header,
so its dispatch iteration completes without raising. -/
def probeOk (net : String → ProbeResult) (u : String) : Prop :=
  ∃ resp raw, net u = ProbeResult.ok resp ∧ resp.contentType = some raw

/-- What the `__main__` block (lines 91-101) does before any network
traffic: whether the help text was printed, which `download` call (urls,
destination directory) it makes, and whether evaluating `sys.argv[2]` in
the `-d` branch raised an `IndexError` (arguments are evaluated before the
call, so `download` is then never entered). -/
structure MainRun where
  helpPrinted : Bool
  downloadCall : Option (List String × String)
  indexError : Bool
deriving DecidableEq

/-- The `__main__` dispatch (lines 91-101). -/
def mainModel (argv : List String) : MainRun :=
  if 2 ≤ argv.length then
    if argv.getD 1 "" = "-h" ∨ argv.getD 1 "" = "--help" then
      ⟨true, some (argv.drop 2, "./"), false⟩
    else if argv.getD 1 "" = "-d" ∨ argv.getD 1 "" = "--directory" then
      if 3 ≤ argv.length then ⟨false, some (argv.drop 3, argv.getD 2 ""), false⟩
      else ⟨false, none, true⟩
    else ⟨false, some (argv.drop 1, "./"), false⟩
  else ⟨true, none, false⟩

/-- The process exit code: 0 on a normal fall-through of `__main__`
(nothing calls `sys.exit`), 1 when an uncaught exception (an `IndexError`
from the argument vector, or an error escaping the dispatch loop)
terminates the interpreter. -/
def exitCodeOf (net : String → ProbeResult) (argv : List String) : Nat :=
  let r := mainModel argv
  if r.indexError then 1
  else
    match r.downloadCall with
    | none => 0
    | some (urls, destDir) =>
      match (download net urls destDir).loop.error with
      | none => 0
      | some _ => 1

/-- Modelled from the spec and line 64 (`ThreadPoolExecutor(max_workers=4)`):
the pool's fixed, non-configurable capacity.  The pool's scheduling
semantics themselves live in `concurrent.futures`, outside this
repository, and are modelled by the transition system below. -/
def MAX_WORKERS : Nat := 4

/-- Modelled from the spec: the scheduling state of the bounded worker
pool — which job indices have started running and which have finished. -/
structure PoolState where
  started : Finset Nat
  finished : Finset Nat
deriving DecidableEq

/-- Modelled from the spec: one scheduling step of a pool executing jobs
`0..n-1`.  A queued job may start only while fewer than `MAX_WORKERS`
jobs are running (started and not yet finished); a running job may finish
at any time. -/
inductive PoolStep (n : Nat) : PoolState → PoolState → Prop
  | start {s : PoolState} (j : Nat) :
      j < n → j ∉ s.started → (s.started \ s.finished).card < MAX_WORKERS →
      PoolStep n s ⟨insert j s.started, s.finished⟩
  | finish {s : PoolState} (j : Nat) :
      j ∈ s.started → j ∉ s.finished →
      PoolStep n s ⟨s.started, insert j s.finished⟩

/-- Pool states reachable from the empty initial state. -/
inductive PoolReachable (n : Nat) : PoolState → Prop
  | init : PoolReachable n ⟨∅, ∅⟩
  | step {s t : PoolState} : PoolReachable n s → PoolStep n s t → PoolReachable n t

/-! ## Helper lemmas about chunking -/

/-- Chunking an empty body yields no chunks, whatever the fuel. -/
theorem chunkBodyAux_nil (fuel : Nat) : chunkBodyAux fuel [] = [] := by
  cases fuel <;> rfl

/-- With enough fuel, the chunks concatenate back to the body. -/
theorem chunkBodyAux_flatten :
    ∀ (fuel : Nat) (b : List Nat), b.length ≤ fuel → (chunkBodyAux fuel b).flatten = b := by
  intro fuel
  induction fuel with
  | zero =>
    intro b hb
    have hb0 : b = [] := List.eq_nil_of_length_eq_zero (Nat.le_zero.mp hb)
    subst hb0
    rfl
  | succ fuel ih =>
    intro b hb
    match b with
    | [] => rfl
    | x :: xs =>
      simp only [chunkBodyAux, List.flatten_cons]
      rw [ih ((x :: xs).drop CHUNK_SIZE) ?_]
      · exact List.take_append_drop CHUNK_SIZE (x :: xs)
      · have hlen := List.length_drop CHUNK_SIZE (x :: xs)
        have hC : 0 < CHUNK_SIZE := by decide
        have hxb : (x :: xs).length ≤ fuel + 1 := hb
        omega

/-- The chunks of a body concatenate back to the body: the fetcher streams
every byte of the body exactly once. -/
theorem chunkBody_flatten (body : List Nat) : (chunkBody body).flatten = body :=
  chunkBodyAux_flatten body.length body (Nat.le_refl _)

/-- Every chunk holds at most `CHUNK_SIZE` bytes. -/
theorem chunkBodyAux_mem_length_le :
    ∀ (fuel : Nat) (b : List Nat), ∀ c ∈ chunkBodyAux fuel b, c.length ≤ CHUNK_SIZE := by
  intro fuel
  induction fuel with
  | zero => intro b c hc; simp [chunkBodyAux] at hc
  | succ fuel ih =>
    intro b c hc
    match b with
    | [] => simp [chunkBodyAux] at hc
    | x :: xs =>
      simp only [chunkBodyAux, List.mem_cons] at hc
      rcases hc with hc | hc
      · subst hc
        exact List.length_take_le CHUNK_SIZE (x :: xs)
      · exact ih _ c hc

/-- Every chunk except possibly the last holds exactly `CHUNK_SIZE` bytes:
the loop reads fixed-size chunks, only the final one may be a remainder. -/
theorem chunkBodyAux_dropLast_length :
    ∀ (fuel : Nat) (b : List Nat), ∀ c ∈ (chunkBodyAux fuel b).dropLast, c.length = CHUNK_SIZE := by
  intro fuel
  induction fuel with
  | zero => intro b c hc; simp [chunkBodyAux] at hc
  | succ fuel ih =>
    intro b c hc
    match b with
    | [] => simp [chunkBodyAux] at hc
    | x :: xs =>
      simp only [chunkBodyAux] at hc
      cases hrest : chunkBodyAux fuel ((x :: xs).drop CHUNK_SIZE) with
      | nil => rw [hrest] at hc; simp at hc
      | cons r rs =>
        rw [hrest] at hc
        have hdrop : (x :: xs).drop CHUNK_SIZE ≠ [] := by
          intro hd
          rw [hd, chunkBodyAux_nil] at hrest
          exact List.noConfusion hrest
        have hlen : CHUNK_SIZE < (x :: xs).length := by
          have hpos : 0 < ((x :: xs).drop CHUNK_SIZE).length := List.length_pos.mpr hdrop
          have hld := List.length_drop CHUNK_SIZE (x :: xs)
          omega
        have hcc : ((x :: xs).take CHUNK_SIZE :: r :: rs).dropLast =
            (x :: xs).take CHUNK_SIZE :: (r :: rs).dropLast := rfl
        rw [hcc, List.mem_cons] at hc
        rcases hc with hc | hc
        · subst hc
          rw [List.length_take]
          omega
        · rw [← hrest] at hc
          exact ih _ c hc

/-! ## Helper lemmas about the streaming loop -/

/-- In the loop's event trace, the event right after writing a chunk is a
progress advance by exactly that chunk's byte length. -/
theorem streamTrace_write_advance (sig : Nat → Bool) :
    ∀ (cs : List (List Nat)) (i n : Nat) (c : List Nat),
      (streamTrace sig cs i).1[n]? = some (FetchEvent.write c) →
      (streamTrace sig cs i).1[n + 1]? = some (FetchEvent.advance c.length) := by
  intro cs
  induction cs with
  | nil => intro i n c h; simp [streamTrace] at h
  | cons c0 rest ih =>
    intro i n c h
    simp only [streamTrace] at h ⊢
    by_cases hs : sig i = true
    · rw [if_pos hs] at h ⊢
      match n with
      | 0 =>
        simp only [List.getElem?_cons_zero, Option.some.injEq] at h
        have hc : c0 = c := by
          cases h
          rfl
        subst hc
        rfl
      | 1 => simp at h
      | 2 => simp at h
      | n + 3 => simp at h
    · rw [if_neg hs] at h ⊢
      match n with
      | 0 =>
        simp only [List.getElem?_cons_zero, Option.some.injEq] at h
        have hc : c0 = c := by
          cases h
          rfl
        subst hc
        rfl
      | 1 => simp at h
      | 2 => simp at h
      | n + 3 =>
        simp only [List.getElem?_cons_succ] at h ⊢
        exact ih (i + 1) n c h

/-- The chunks the loop writes are an initial segment of the chunk list:
cancellation truncates the download, it never reorders or corrupts it. -/
theorem writtenChunks_streamTrace (sig : Nat → Bool) :
    ∀ (cs : List (List Nat)) (i : Nat),
      writtenChunks (streamTrace sig cs i).1 =
        cs.take (writtenChunks (streamTrace sig cs i).1).length := by
  intro cs
  induction cs with
  | nil => intro i; simp [streamTrace, writtenChunks]
  | cons c0 rest ih =>
    intro i
    simp only [streamTrace]
    by_cases hs : sig i = true
    · rw [if_pos hs]
      simp [writtenChunks, List.filterMap_cons]
    · rw [if_neg hs]
      simp only [writtenChunks, List.filterMap_cons] at ih ⊢
      simp only [List.length_cons, List.take_succ_cons, List.cons.injEq, true_and]
      exact ih (i + 1)

/-- Let the cancellation flag be monotone (once set it stays set) and set
by check number `k`.  Starting from check index `i ≤ k`, the loop writes at
most `k + 1 - i` further chunks: at most one chunk is written at or after
the moment the flag is set. -/
theorem writtenChunks_length_le (sig : Nat → Bool) (k : Nat)
    (hmono : ∀ i j, i ≤ j → sig i = true → sig j = true) (hk : sig k = true) :
    ∀ (cs : List (List Nat)) (i : Nat), i ≤ k →
      (writtenChunks (streamTrace sig cs i).1).length ≤ k + 1 - i := by
  intro cs
  induction cs with
  | nil => intro i hi; simp [streamTrace, writtenChunks]
  | cons c0 rest ih =>
    intro i hi
    simp only [streamTrace]
    by_cases hs : sig i = true
    · rw [if_pos hs]
      simp only [writtenChunks, List.filterMap_cons, List.filterMap_nil]
      simp only [List.length_cons, List.length_nil]
      omega
    · rw [if_neg hs]
      have hik : i < k := by
        rcases Nat.lt_or_ge i k with h | h
        · exact h
        · exact absurd (hmono k i h hk) hs
      have := ih (i + 1) (by omega)
      simp only [writtenChunks, List.filterMap_cons] at this ⊢
      simp only [List.length_cons]
      omega

/-- If the flag is set by check `k` and the chunk list extends past index
`k`, the loop returns early: the completion log line is never reached. -/
theorem streamTrace_not_completed (sig : Nat → Bool) (k : Nat)
    (hmono : ∀ i j, i ≤ j → sig i = true → sig j = true) (hk : sig k = true) :
    ∀ (cs : List (List Nat)) (i : Nat), i ≤ k → k < i + cs.length →
      (streamTrace sig cs i).2 = false := by
  intro cs
  induction cs with
  | nil => intro i hi hlen; simp at hlen; omega
  | cons c0 rest ih =>
    intro i hi hlen
    simp only [streamTrace]
    by_cases hs : sig i = true
    · rw [if_pos hs]
    · rw [if_neg hs]
      have hik : i < k := by
        rcases Nat.lt_or_ge i k with h | h
        · exact h
        · exact absurd (hmono k i h hk) hs
      simp only [List.length_cons] at hlen
      exact ih (i + 1) (by omega) (by omega)

/-- The advances in the trace total exactly the bytes of the written
chunks: the counter is advanced by the chunk's length, nothing else. -/
theorem advanceTotal_streamTrace (sig : Nat → Bool) :
    ∀ (cs : List (List Nat)) (i : Nat),
      advanceTotal (streamTrace sig cs i).1 =
        ((writtenChunks (streamTrace sig cs i).1).map List.length).sum := by
  intro cs
  induction cs with
  | nil => intro i; simp [streamTrace, writtenChunks, advanceTotal]
  | cons c0 rest ih =>
    intro i
    simp only [streamTrace]
    by_cases hs : sig i = true
    · rw [if_pos hs]
      simp [writtenChunks, advanceTotal, List.filterMap_cons]
    · rw [if_neg hs]
      simp only [writtenChunks, advanceTotal, List.filterMap_cons] at ih ⊢
      simp only [List.map_cons, List.sum_cons]
      rw [ih (i + 1)]

/-- `advanceTotal` is additive over trace concatenation. -/
theorem advanceTotal_append (a b : List FetchEvent) :
    advanceTotal (a ++ b) = advanceTotal a + advanceTotal b := by
  simp [advanceTotal, List.filterMap_append]

/-- The transferred-byte counter is monotonically non-decreasing along the
event trace. -/
theorem counterAt_mono (es : List FetchEvent) (n m : Nat) (h : n ≤ m) :
    counterAt es n ≤ counterAt es m := by
  have hm : m = n + (m - n) := by omega
  rw [counterAt, counterAt, hm, List.take_add, advanceTotal_append]
  exact Nat.le_add_right _ _

/-! ## Helper lemmas about the dispatch loop -/

/-- Every task the dispatcher registers has its transferred-byte counter
at 0: the dispatcher sets only descriptive fields and never advances a
counter (all `advance` events live in the owning fetcher's trace). -/
theorem dispatchLoop_transferred_zero (net : String → ProbeResult) (destDir : String) :
    ∀ (urls : List String) (t : DispatchTask),
      t ∈ (dispatchLoop net destDir urls).tasks → t.transferred = 0 := by
  intro urls
  induction urls with
  | nil => intro t ht; simp [dispatchLoop] at ht
  | cons u rest ih =>
    intro t ht
    cases hnet : net u with
    | transportFailure => simp [dispatchLoop, hnet] at ht
    | ok resp =>
      cases hct : resp.contentType with
      | none => simp [dispatchLoop, hnet, hct] at ht
      | some raw =>
        simp only [dispatchLoop, hnet, hct, List.mem_cons] at ht
        rcases ht with h | h
        · subst h; rfl
        · exact ih t h

/-- A prefix of URLs whose probes all succeed with a `Content-Type` header
passes through the dispatch loop contributing one probe, one task and one
job each, and the loop's final error is decided by the remaining URLs. -/
theorem dispatchLoop_append_ok (net : String → ProbeResult) (destDir : String) :
    ∀ (pre rest : List String), (∀ u ∈ pre, probeOk net u) →
      (dispatchLoop net destDir (pre ++ rest)).probed =
        pre ++ (dispatchLoop net destDir rest).probed ∧
      (dispatchLoop net destDir (pre ++ rest)).tasks.length =
        pre.length + (dispatchLoop net destDir rest).tasks.length ∧
      (dispatchLoop net destDir (pre ++ rest)).jobs.length =
        pre.length + (dispatchLoop net destDir rest).jobs.length ∧
      (dispatchLoop net destDir (pre ++ rest)).error =
        (dispatchLoop net destDir rest).error := by
  intro pre
  induction pre with
  | nil => intro rest h; simp
  | cons u pre ih =>
    intro rest h
    obtain ⟨resp, raw, hnet, hct⟩ := h u (List.mem_cons_self u pre)
    have hpre : ∀ v ∈ pre, probeOk net v := fun v hv => h v (List.mem_cons_of_mem u hv)
    obtain ⟨h1, h2, h3, h4⟩ := ih rest hpre
    simp only [List.cons_append, dispatchLoop, hnet, hct, List.append_eq] at h1 h2 h3 h4 ⊢
    refine ⟨?_, ?_, ?_, h4⟩
    · simp [h1]
    · simp only [List.length_cons, h2, List.length_cons]
      omega
    · simp only [List.length_cons, h3, List.length_cons]
      omega

/-! ## Helper lemmas about status markup strings -/

/-- A string starting with the green markup tag never equals one starting
with the red markup tag. -/
theorem green_ne_red (x y : String) : "[green]" ++ x ≠ "[red]" ++ y := by
  intro h
  have h2 := congrArg String.data h
  rw [String.data_append, String.data_append] at h2
  have e1 : ("[green]" : String).data = ['[', 'g', 'r', 'e', 'e', 'n', ']'] := rfl
  have e2 : ("[red]" : String).data = ['[', 'r', 'e', 'd', ']'] := rfl
  rw [e1, e2] at h2
  simp at h2

/-- For a non-200 status the rendered markup is the red form, and it is
not the green form, whatever follows the tag. -/
theorem renderStatusCode_failure (status : Nat) (h : status ≠ 200) :
    renderStatusCode status = "[red]" ++ toString status ++ "[/]" ∧
      ∀ t : String, renderStatusCode status ≠ "[green]" ++ t := by
  have hr : renderStatusCode status = "[red]" ++ toString status ++ "[/]" := by
    unfold renderStatusCode codes_ok
    rw [if_neg h]
  refine ⟨hr, fun t hgreen => ?_⟩
  rw [hr, String.append_assoc] at hgreen
  exact green_ne_red t (toString status ++ "[/]") hgreen.symm

/-! ## Helper lemmas about the worker pool -/

/-- In every reachable pool state, finished jobs have started. -/
theorem poolReachable_finished_subset (n : Nat) (s : PoolState) (h : PoolReachable n s) :
    s.finished ⊆ s.started := by
  induction h with
  | init => exact Finset.Subset.refl _
  | step hr hstep ih =>
    cases hstep with
    | start j hj hjs hcard => exact ih.trans (Finset.subset_insert j _)
    | finish j hjs hjf => exact Finset.insert_subset hjs ih

/-- In every reachable pool state at most `MAX_WORKERS` jobs are running
(started and not yet finished). -/
theorem poolReachable_running_le (n : Nat) (s : PoolState) (h : PoolReachable n s) :
    (s.started \ s.finished).card ≤ MAX_WORKERS := by
  induction h with
  | init => simp [MAX_WORKERS]
  | step hr hstep ih =>
    rename_i s t
    cases hstep with
    | start j hj hjs hcard =>
      dsimp only
      have hsub : insert j s.started \ s.finished ⊆ insert j (s.started \ s.finished) := by
        intro x hx
        simp only [Finset.mem_sdiff, Finset.mem_insert] at hx ⊢
        tauto
      have h1 := Finset.card_le_card hsub
      have h2 := Finset.card_insert_le j (s.started \ s.finished)
      omega
    | finish j hjs hjf =>
      have hsub : s.started \ insert j s.finished ⊆ s.started \ s.finished := by
        intro x hx
        simp only [Finset.mem_sdiff, Finset.mem_insert] at hx ⊢
        tauto
      exact (Finset.card_le_card hsub).trans ih

/-! ## Concrete endpoints used by witnesses and counterexamples -/

/-- Endpoint whose HEAD omits `Content-Length` (and, as HTTP prescribes for
HEAD, carries no body) while the streaming GET has a 5-byte body. -/
def serverNoLength : Server :=
  { head := { status := 200, contentLength := none, contentType := some "text/plain", body := [] }
    get := { status := 200, contentLength := none, contentType := some "text/plain", body := [7, 7, 7, 7, 7] } }

/-- Endpoint whose HEAD declares `Content-Length: 1000` while the GET body
has only 3 bytes (the fallback-total inconsistency the spec flags). -/
def serverWithLength : Server :=
  { head := { status := 200, contentLength := some 1000, contentType := some "application/octet-stream", body := [] }
    get := { status := 200, contentLength := none, contentType := some "application/octet-stream", body := [1, 2, 3] } }

/-- Probe environment answering every URL with status 204 (2xx but not 200). -/
def net204 : String → ProbeResult := fun _ =>
  ProbeResult.ok { status := 204, contentLength := some 0, contentType := some "text/html", body := [] }

/-- Probe environment answering every URL with status 404. -/
def net404 : String → ProbeResult := fun _ =>
  ProbeResult.ok { status := 404, contentLength := some 9, contentType := some "text/html", body := [] }

/-- Endpoint with a 3-byte GET body, for cancellation scenarios. -/
def serverSmall : Server :=
  { head := { status := 200, contentLength := some 3, contentType := some "application/octet-stream", body := [] }
    get := { status := 200, contentLength := some 3, contentType := some "application/octet-stream", body := [10, 20, 30] } }

/-- Endpoint with a 3-byte GET body, for chunk-accounting scenarios. -/
def serverBytes : Server :=
  { head := { status := 200, contentLength := some 3, contentType := some "application/octet-stream", body := [] }
    get := { status := 200, contentLength := some 3, contentType := some "application/octet-stream", body := [10, 20, 30] } }

/-- Probe environment reporting `Content-Type: text/plain` for every URL. -/
def netPlain : String → ProbeResult := fun _ =>
  ProbeResult.ok { status := 200, contentLength := some 12, contentType := some "text/plain", body := [] }

/-- Probe environment reporting `Content-Type: image/png` for every URL. -/
def netPng : String → ProbeResult := fun _ =>
  ProbeResult.ok { status := 200, contentLength := some 4, contentType := some "image/png", body := [] }

/-- Probe environment where exactly the URL `http://h/b` fails at the
transport layer. -/
def netFailB : String → ProbeResult := fun u =>
  if u = "http://h/b" then ProbeResult.transportFailure
  else ProbeResult.ok { status := 200, contentLength := some 3, contentType := some "text/html", body := [] }

/-- Probe environment where exactly the URL `http://h/b` answers without a
`Content-Type` header. -/
def netNoCT : String → ProbeResult := fun u =>
  if u = "http://h/b" then
    ProbeResult.ok { status := 200, contentLength := some 3, contentType := none, body := [] }
  else ProbeResult.ok { status := 200, contentLength := some 3, contentType := some "text/html", body := [] }

/-! ## Claims -/

/-- C1, counterexample: with a HEAD response that omits `Content-Length`,
the displayed total (5) is the byte length of the fully buffered body of
the FIRST request — the streaming GET of line 44 — not of a second,
non-streamed request: the only second request `copy_url` issues is the
HEAD of line 45, which is non-streamed but bodyless (body length 0 ≠ 5),
and no further request exists in the trace. -/
theorem c1_counterexample :
    (copyUrl (fun _ => false) serverNoLength "http://h/f").displayedTotal = 5 ∧
    (copyUrl (fun _ => false) serverNoLength "http://h/f").requestTrace =
      [⟨Method.get, "http://h/f", true⟩, ⟨Method.head, "http://h/f", false⟩] ∧
    ((copyUrl (fun _ => false) serverNoLength "http://h/f").requestTrace.getD 1 default).streamed
      = false ∧
    serverNoLength.head.body.length = 0 ∧
    (copyUrl (fun _ => false) serverNoLength "http://h/f").displayedTotal ≠
      serverNoLength.head.body.length ∧
    (copyUrl (fun _ => false) serverNoLength "http://h/f").displayedTotal =
      serverNoLength.get.body.length ∧
    (serverNoLength.get = Server.get serverNoLength) := by
  decide

/-- C1 (amended): the fetcher prefers the `Content-Length` header of the
HEAD response as the displayed total; when that header is absent, the
total is the byte length of the fully buffered body of the initial
streaming GET response itself (which is exactly the number of bytes its
chunks concatenate to) — no additional request is issued for the
fallback; the request trace is always the streaming GET followed by the
non-streamed HEAD. -/
theorem c1_total (sig : Nat → Bool) (server : Server) (url : String) :
    (∀ n, server.head.contentLength = some n →
      (copyUrl sig server url).displayedTotal = n) ∧
    (server.head.contentLength = none →
      (copyUrl sig server url).displayedTotal = server.get.body.length ∧
      (chunkBody server.get.body).flatten = server.get.body) ∧
    (copyUrl sig server url).requestTrace =
      [⟨Method.get, url, true⟩, ⟨Method.head, url, false⟩] := by
  refine ⟨?_, ?_, rfl⟩
  · intro n hn
    simp [copyUrl, hn]
  · intro hn
    exact ⟨by simp [copyUrl, hn], chunkBody_flatten _⟩

/-- C1, witness: a HEAD with `Content-Length: 1000` displays total 1000;
a HEAD without the header displays the GET body's length (5 bytes). -/
theorem c1_witness :
    (copyUrl (fun _ => false) serverWithLength "http://h/a").displayedTotal = 1000 ∧
    (copyUrl (fun _ => false) serverNoLength "http://h/f").displayedTotal = 5 := by
  constructor
  · exact (c1_total (fun _ => false) serverWithLength "http://h/a").1 1000 rfl
  · have h := ((c1_total (fun _ => false) serverNoLength "http://h/f").2.1 rfl).1
    exact h.trans (by decide)

/-- C2, counterexample: status 204 lies in the 2xx family, yet the
dispatcher renders the red (failure) markup for it, because line 72
compares the status against `requests.codes.ok` — the single code 200 —
not against the whole 2xx family; the job is still submitted. -/
theorem c2_counterexample :
    (200 ≤ 204 ∧ 204 ≤ 299) ∧
    (download net204 ["http://h/a"] ".").loop.tasks =
      [{ filename := "a", contenttype := "text/html", responsecode := "[red]204[/]",
         started := false, transferred := 0 }] ∧
    "[red]204[/]" ≠ "[green]204[/]" ∧
    (download net204 ["http://h/a"] ".").loop.jobs =
      [{ url := "http://h/a", destPath := "./a" }] := by
  decide

/-- C2 (amended): the dispatcher renders the success (green) indicator
exactly for status code 200 (`requests.codes.ok`) and the failure (red)
indicator for every other status code, including non-200 members of the
2xx family; in either case exactly one display task is registered and the
fetch job is still submitted to the pool. -/
theorem c2_status (net : String → ProbeResult) (destDir url : String)
    (resp : Response) (raw : String)
    (hnet : net url = ProbeResult.ok resp) (hct : resp.contentType = some raw) :
    (download net [url] destDir).loop.tasks.length = 1 ∧
    (download net [url] destDir).loop.jobs.length = 1 ∧
    ((download net [url] destDir).loop.tasks.headD default).responsecode =
      (if resp.status = 200 then "[green]" ++ toString resp.status ++ "[/]"
       else "[red]" ++ toString resp.status ++ "[/]") ∧
    (∀ t : String, resp.status ≠ 200 →
      ((download net [url] destDir).loop.tasks.headD default).responsecode ≠
        "[green]" ++ t) := by
  have htasks : (download net [url] destDir).loop.tasks = [taskFor url resp raw] := by
    simp [download, dispatchLoop, hnet, hct]
  have hjobs : (download net [url] destDir).loop.jobs =
      [⟨url, joinPath destDir (taskFor url resp raw).filename⟩] := by
    simp [download, dispatchLoop, hnet, hct]
  have hcode : ((download net [url] destDir).loop.tasks.headD default).responsecode =
      renderStatusCode resp.status := by
    rw [htasks]
    rfl
  refine ⟨by rw [htasks]; rfl, by rw [hjobs]; rfl, ?_, ?_⟩
  · rw [hcode]
    unfold renderStatusCode codes_ok
    rfl
  · intro t hne
    rw [hcode]
    exact (renderStatusCode_failure resp.status hne).2 t

/-- C2, witness: a 404 probe yields the red markup and the job is still
submitted. -/
theorem c2_witness :
    ((download net404 ["http://h/missing"] ".").loop.tasks.headD default).responsecode =
      "[red]" ++ toString (404 : Nat) ++ "[/]" ∧
    ((download net404 ["http://h/missing"] ".").loop.tasks.headD default).responsecode ≠
      "[green]404[/]" ∧
    (download net404 ["http://h/missing"] ".").loop.jobs.length = 1 := by
  have h := c2_status net404 "." "http://h/missing"
      { status := 404, contentLength := some 9, contentType := some "text/html", body := [] }
      "text/html" rfl rfl
  refine ⟨?_, ?_, h.2.1⟩
  · have h3 := h.2.2.1
    rw [if_neg (by decide)] at h3
    exact h3
  · exact h.2.2.2 "404[/]" (by decide)

/-- C3: once the cancellation flag is set (monotone, set by check index k,
observed while chunks remain), the fetcher stops early: the chunks written
are an initial segment of the body's chunk list of length at most k + 1
(at most one chunk after the flag fires), the counter was advanced by
exactly the bytes written (the partial file is left as-is, no cleanup),
the destination file handle is still closed by the `with open` scope, and
the completion log line of line 57 is never emitted.  The model has no
exception channel in the loop: the early exit is a plain return. -/
theorem c3_cancellation (sig : Nat → Bool) (server : Server) (url : String) (k : Nat)
    (hmono : ∀ i j, i ≤ j → sig i = true → sig j = true)
    (hk : sig k = true)
    (hin : k < (chunkBody server.get.body).length) :
    (writtenChunks (copyUrl sig server url).events).length ≤ k + 1 ∧
    writtenChunks (copyUrl sig server url).events =
      (chunkBody server.get.body).take
        (writtenChunks (copyUrl sig server url).events).length ∧
    advanceTotal (copyUrl sig server url).events =
      ((writtenChunks (copyUrl sig server url).events).map List.length).sum ∧
    (copyUrl sig server url).fileClosed = true ∧
    (copyUrl sig server url).completionLogged = false := by
  have hevents : (copyUrl sig server url).events =
      (streamTrace sig (chunkBody server.get.body) 0).1 := rfl
  have hlog : (copyUrl sig server url).completionLogged =
      (streamTrace sig (chunkBody server.get.body) 0).2 := rfl
  refine ⟨?_, ?_, ?_, rfl, ?_⟩
  · rw [hevents]
    have := writtenChunks_length_le sig k hmono hk (chunkBody server.get.body) 0 (Nat.zero_le k)
    omega
  · rw [hevents]
    exact writtenChunks_streamTrace sig _ 0
  · rw [hevents]
    exact advanceTotal_streamTrace sig _ 0
  · rw [hlog]
    exact streamTrace_not_completed sig k hmono hk _ 0 (Nat.zero_le k) (by omega)

/-- C3, witness: with the flag already set at the first check, at most one
chunk is written, the handle is closed, and no completion line is logged. -/
theorem c3_witness :
    (writtenChunks (copyUrl (fun _ => true) serverSmall "http://h/f").events).length ≤ 1 ∧
    (copyUrl (fun _ => true) serverSmall "http://h/f").fileClosed = true ∧
    (copyUrl (fun _ => true) serverSmall "http://h/f").completionLogged = false := by
  have h := c3_cancellation (fun _ => true) serverSmall "http://h/f" 0
      (fun i j hij hi => hi) rfl (by decide)
  exact ⟨h.1, h.2.2.2.1, h.2.2.2.2⟩

/-- C4: for a URL whose probe succeeds with a `Content-Type` header, the
destination filename is the URL's final path segment with `.txt` appended
exactly when the parsed content type (the header up to the first `;`)
equals `text/plain`, and unchanged for every other content type. -/
theorem c4_txt_suffix (net : String → ProbeResult) (destDir url : String)
    (rest : List String) (resp : Response) (raw : String)
    (hnet : net url = ProbeResult.ok resp) (hct : resp.contentType = some raw) :
    ((dispatchLoop net destDir (url :: rest)).tasks.headD default).filename =
      (if parseContentTypeHeader raw = "text/plain"
       then filenameFromUrl url ++ ".txt"
       else filenameFromUrl url) := by
  simp [dispatchLoop, hnet, hct, taskFor]

/-- C4, witness: the spec's scenario — `Content-Type: text/plain` and
final path segment `readme` produce destination filename `readme.txt`. -/
theorem c4_witness :
    ((dispatchLoop netPlain "." ["http://h/readme"]).tasks.headD default).filename =
      "readme.txt" := by
  have h := c4_txt_suffix netPlain "." "http://h/readme" []
      { status := 200, contentLength := some 12, contentType := some "text/plain", body := [] }
      "text/plain" rfl rfl
  rw [h]
  decide

/-- C5: the body is chunked with fixed size 32768 — every chunk holds at
most 32768 bytes, every chunk but the last holds exactly 32768, and the
chunks concatenate to the body; in the fetcher's event trace every file
write of a chunk is immediately followed by a counter advance of exactly
that chunk's byte length; the transferred-byte counter is monotonically
non-decreasing along the trace; and the dispatcher registers every task
with a transferred-byte counter of 0 and never advances it (advance
events exist only in the owning fetcher's trace). -/
theorem c5_chunks_and_counter (sig : Nat → Bool) (server : Server) (url : String) :
    CHUNK_SIZE = 32768 ∧
    ((chunkBody server.get.body).all fun c => decide (c.length ≤ CHUNK_SIZE)) = true ∧
    ((chunkBody server.get.body).dropLast.all fun c => c.length == CHUNK_SIZE) = true ∧
    (chunkBody server.get.body).flatten = server.get.body ∧
    (∀ n c, (copyUrl sig server url).events[n]? = some (FetchEvent.write c) →
      (copyUrl sig server url).events[n + 1]? = some (FetchEvent.advance c.length)) ∧
    (∀ n m, n ≤ m →
      counterAt (copyUrl sig server url).events n ≤
        counterAt (copyUrl sig server url).events m) ∧
    (∀ (net : String → ProbeResult) (destDir : String) (urls : List String) (t : DispatchTask),
      t ∈ (dispatchLoop net destDir urls).tasks → t.transferred = 0) := by
  refine ⟨rfl, ?_, ?_, chunkBody_flatten _, ?_, ?_, ?_⟩
  · rw [List.all_eq_true]
    intro c hc
    simpa using chunkBodyAux_mem_length_le _ _ c hc
  · rw [List.all_eq_true]
    intro c hc
    simpa using chunkBodyAux_dropLast_length _ _ c hc
  · intro n c h
    exact streamTrace_write_advance sig _ 0 n c h
  · intro n m h
    exact counterAt_mono _ n m h
  · intro net destDir urls t ht
    exact dispatchLoop_transferred_zero net destDir urls t ht

/-- C5, witness: on a 3-byte body the single chunk is written and then the
counter advanced by 3; the counter never decreases across the trace; a
freshly registered task has transferred 0. -/
theorem c5_witness :
    (chunkBody serverBytes.get.body).flatten = serverBytes.get.body ∧
    (copyUrl (fun _ => false) serverBytes "http://h/f").events[1]? =
      some (FetchEvent.advance 3) ∧
    counterAt (copyUrl (fun _ => false) serverBytes "http://h/f").events 0 ≤
      counterAt (copyUrl (fun _ => false) serverBytes "http://h/f").events 3 ∧
    ((dispatchLoop netPng "." ["http://h/logo"]).tasks.headD default).transferred = 0 := by
  have h := c5_chunks_and_counter (fun _ => false) serverBytes "http://h/f"
  refine ⟨h.2.2.2.1, ?_, ?_, ?_⟩
  · exact h.2.2.2.2.1 0 [10, 20, 30] (by decide)
  · exact h.2.2.2.2.2.1 0 3 (by omega)
  · exact h.2.2.2.2.2.2 netPng "." ["http://h/logo"]
      ((dispatchLoop netPng "." ["http://h/logo"]).tasks.headD default) (by decide)

/-- C6: if the HEAD probe of some URL fails at the transport layer and
every earlier URL probed cleanly, the exception escapes the dispatch loop:
the run aborts with the transport error, the failing URL is the last one
probed (no later URL is probed), and only the earlier URLs have display
tasks registered or jobs submitted. -/
theorem c6_probe_failure (net : String → ProbeResult) (destDir : String)
    (pre post : List String) (u : String)
    (hpre : ∀ v ∈ pre, probeOk net v)
    (hu : net u = ProbeResult.transportFailure) :
    (dispatchLoop net destDir (pre ++ u :: post)).error = some DispatchError.transportError ∧
    (dispatchLoop net destDir (pre ++ u :: post)).probed = pre ++ [u] ∧
    (dispatchLoop net destDir (pre ++ u :: post)).tasks.length = pre.length ∧
    (dispatchLoop net destDir (pre ++ u :: post)).jobs.length = pre.length := by
  obtain ⟨h1, h2, h3, h4⟩ := dispatchLoop_append_ok net destDir pre (u :: post) hpre
  have hstep : dispatchLoop net destDir (u :: post) =
      ⟨[u], [], [], some DispatchError.transportError⟩ := by
    simp [dispatchLoop, hu]
  rw [hstep] at h1 h2 h3 h4
  exact ⟨by simpa using h4, by simpa using h1, by simpa using h2, by simpa using h3⟩

/-- C6, witness: with URLs a, b, c where b's probe fails, the run aborts
after probing a and b: c is never probed and only a's task and job exist. -/
theorem c6_witness :
    (dispatchLoop netFailB "." ["http://h/a", "http://h/b", "http://h/c"]).error =
      some DispatchError.transportError ∧
    (dispatchLoop netFailB "." ["http://h/a", "http://h/b", "http://h/c"]).probed =
      ["http://h/a", "http://h/b"] ∧
    (dispatchLoop netFailB "." ["http://h/a", "http://h/b", "http://h/c"]).tasks.length = 1 ∧
    (dispatchLoop netFailB "." ["http://h/a", "http://h/b", "http://h/c"]).jobs.length = 1 := by
  have hpre : ∀ v ∈ ["http://h/a"], probeOk netFailB v := by
    intro v hv
    simp only [List.mem_singleton] at hv
    subst hv
    exact ⟨{ status := 200, contentLength := some 3, contentType := some "text/html", body := [] },
      "text/html", by decide, rfl⟩
  have h := c6_probe_failure netFailB "." ["http://h/a"] ["http://h/c"] "http://h/b"
      hpre (by decide)
  simpa using h

/-- C7: invoked with `-h` or `--help` as the first argument, the program
prints the usage message, and the help code path still invokes a download
of the remaining arguments into the current directory `./`; the process
then exits with code 0 (nothing sets an exit code, so the interpreter
default applies) provided that download raises no error — in particular
unconditionally when no arguments follow the flag. -/
theorem c7_help_path (net : String → ProbeResult) (argv : List String)
    (h1 : 2 ≤ argv.length)
    (h2 : argv.getD 1 "" = "-h" ∨ argv.getD 1 "" = "--help")
    (h3 : (dispatchLoop net "./" (argv.drop 2)).error = none) :
    (mainModel argv).helpPrinted = true ∧
    (mainModel argv).downloadCall = some (argv.drop 2, "./") ∧
    exitCodeOf net argv = 0 := by
  have hm : mainModel argv = ⟨true, some (argv.drop 2, "./"), false⟩ := by
    unfold mainModel
    rw [if_pos h1, if_pos h2]
  refine ⟨by rw [hm], by rw [hm], ?_⟩
  unfold exitCodeOf
  rw [hm]
  simp only [download]
  simpa using congrArg (fun e => match e with | none => 0 | some _ => 1) h3

/-- C7, witness: `prog --help` prints usage, downloads the (empty) rest
into `./`, and exits 0. -/
theorem c7_witness :
    (mainModel ["prog", "--help"]).helpPrinted = true ∧
    (mainModel ["prog", "--help"]).downloadCall = some ([], "./") ∧
    exitCodeOf (fun _ => ProbeResult.transportFailure) ["prog", "--help"] = 0 := by
  have h := c7_help_path (fun _ => ProbeResult.transportFailure) ["prog", "--help"]
      (by decide) (Or.inr (by decide)) rfl
  simpa using h

/-- C8: the worker pool's capacity is the fixed constant 4; in every
reachable pool state at most 4 jobs are running concurrently; and
whenever a start step for a fresh job is enabled in a state where 4 jobs
have already started (the 5th job of 5 or more), at least one of the
earlier jobs has already finished. -/
theorem c8_pool_bound (n : Nat) (s : PoolState) (h : PoolReachable n s) :
    MAX_WORKERS = 4 ∧
    (s.started \ s.finished).card ≤ MAX_WORKERS ∧
    (∀ j : Nat, s.started.card = 4 → j ∉ s.started →
      PoolStep n s ⟨insert j s.started, s.finished⟩ → s.finished.Nonempty) := by
  refine ⟨rfl, poolReachable_running_le n s h, ?_⟩
  intro j hcard hj hstep
  have hrun : (s.started \ s.finished).card < MAX_WORKERS := by
    generalize ht : (⟨insert j s.started, s.finished⟩ : PoolState) = t at hstep
    cases hstep with
    | start j' hj' hjs' hrun' => exact hrun'
    | finish j' hjs' hjf' =>
      injection ht with ha hb
      exact absurd (ha ▸ Finset.mem_insert_self j s.started) hj
  have hsub := poolReachable_finished_subset n s h
  have hsd : (s.started \ s.finished).card = s.started.card - s.finished.card :=
    Finset.card_sdiff hsub
  have hf : 0 < s.finished.card := by
    rw [MAX_WORKERS] at hrun
    omega
  exact Finset.card_pos.mp hf

/-- C8, witness: after starting jobs 0-3 (filling the pool) and finishing
job 0, the 5th job (index 4) may start, and indeed a job has finished;
the running count in that state is within the bound. -/
theorem c8_witness :
    (insert 0 (∅ : Finset Nat)).Nonempty ∧
    (insert 3 (insert 2 (insert 1 (insert 0 (∅ : Finset Nat)))) \ insert 0 ∅).card ≤
      MAX_WORKERS := by
  have hreach : PoolReachable 5
      ⟨insert 3 (insert 2 (insert 1 (insert 0 ∅))), insert 0 ∅⟩ := by
    refine PoolReachable.step (PoolReachable.step (PoolReachable.step (PoolReachable.step
      (PoolReachable.step PoolReachable.init
        (PoolStep.start 0 (by decide) (by decide) (by decide)))
        (PoolStep.start 1 (by decide) (by decide) (by decide)))
        (PoolStep.start 2 (by decide) (by decide) (by decide)))
        (PoolStep.start 3 (by decide) (by decide) (by decide)))
        (PoolStep.finish 0 (by decide) (by decide))
  have h := c8_pool_bound 5 ⟨insert 3 (insert 2 (insert 1 (insert 0 ∅))), insert 0 ∅⟩ hreach
  exact ⟨h.2.2 4 (by decide) (by decide)
      (PoolStep.start 4 (by decide) (by decide) (by decide)), h.2.1⟩

/-- C9: a probe whose response carries no `Content-Type` header at all
makes line 68's `headers['Content-Type']` raise an uncaught `KeyError`,
aborting the whole run before that URL's task is registered or its job
submitted; no later URL is probed. -/
theorem c9_missing_content_type (net : String → ProbeResult) (destDir : String)
    (pre post : List String) (u : String) (resp : Response)
    (hpre : ∀ v ∈ pre, probeOk net v)
    (hu : net u = ProbeResult.ok resp)
    (hct : resp.contentType = none) :
    (dispatchLoop net destDir (pre ++ u :: post)).error =
      some (DispatchError.keyError "Content-Type") ∧
    (dispatchLoop net destDir (pre ++ u :: post)).probed = pre ++ [u] ∧
    (dispatchLoop net destDir (pre ++ u :: post)).tasks.length = pre.length ∧
    (dispatchLoop net destDir (pre ++ u :: post)).jobs.length = pre.length := by
  obtain ⟨h1, h2, h3, h4⟩ := dispatchLoop_append_ok net destDir pre (u :: post) hpre
  have hstep : dispatchLoop net destDir (u :: post) =
      ⟨[u], [], [], some (DispatchError.keyError "Content-Type")⟩ := by
    simp [dispatchLoop, hu, hct]
  rw [hstep] at h1 h2 h3 h4
  exact ⟨by simpa using h4, by simpa using h1, by simpa using h2, by simpa using h3⟩

/-- C9, witness: with URLs a, b, c where b's HEAD response has no
`Content-Type`, the run aborts with a `KeyError` after probing a and b:
only a's task and job exist, c is never probed. -/
theorem c9_witness :
    (dispatchLoop netNoCT "." ["http://h/a", "http://h/b", "http://h/c"]).error =
      some (DispatchError.keyError "Content-Type") ∧
    (dispatchLoop netNoCT "." ["http://h/a", "http://h/b", "http://h/c"]).probed =
      ["http://h/a", "http://h/b"] ∧
    (dispatchLoop netNoCT "." ["http://h/a", "http://h/b", "http://h/c"]).tasks.length = 1 ∧
    (dispatchLoop netNoCT "." ["http://h/a", "http://h/b", "http://h/c"]).jobs.length = 1 := by
  have hpre : ∀ v ∈ ["http://h/a"], probeOk netNoCT v := by
    intro v hv
    simp only [List.mem_singleton] at hv
    subst hv
    exact ⟨{ status := 200, contentLength := some 3, contentType := some "text/html", body := [] },
      "text/html", by decide, rfl⟩
  have h := c9_missing_content_type netNoCT "." ["http://h/a"] ["http://h/c"] "http://h/b"
      { status := 200, contentLength := some 3, contentType := none, body := [] }
      hpre (by decide) rfl
  simpa using h

/-- C10: calling `download` with an empty URL sequence (as the help path
does when no arguments follow the flag) probes nothing, registers no
task, submits no job, raises no error, and still opens and tears down the
progress display; the `-h` invocation indeed produces that empty call
into `./`. -/
theorem c10_empty_download (net : String → ProbeResult) (destDir : String) :
    download net [] destDir =
      { displayOpened := true
        displayClosed := true
        loop := { probed := [], tasks := [], jobs := [], error := none } } ∧
    mainModel ["prog", "-h"] =
      { helpPrinted := true, downloadCall := some ([], "./"), indexError := false } := by
  exact ⟨rfl, by decide⟩

end DownCLI
